import Mathlib

/-!
Verification development for the banking-ai repository.

This file gives a shallow embedding of the deterministic core of the
repository (the JSON response-recovery layer in `src/config.py`, the
retry wrapper `rate_limited_api_call`, the coordinator's decision
synthesis in `src/agents/orchestrator.py`, the memory/plan/goal
handling in `src/models/base_agent.py`, and the segmentation response
parser in `src/utils/customer_segmentation.py`) and proves properties
about it.

Conventions of the embedding:
* Python strings are Lean `String` / `List Char`.
* Python numbers (int and float both) are modelled as `ℚ`; float
  rounding artefacts and the non-finite literals `NaN`/`Infinity` are
  not modelled (no claim input exercises them).
* Python dicts are association lists in insertion order; duplicate
  keys overwrite in place, as CPython's json decoder does.
* Raised exceptions are modelled with `Option`/`Except` results; the
  exception text of the wrapped remote call is modelled as a `String`
  because the source only inspects `str(e)` for substrings.
-/

/-- JSON values as produced by Python's `json.loads`.  `num` collapses
Python's int/float distinction into `ℚ`. -/
inductive JsonValue : Type where
  | null : JsonValue
  | bool (b : Bool) : JsonValue
  | num (q : ℚ) : JsonValue
  | str (s : String) : JsonValue
  | arr (elems : List JsonValue) : JsonValue
  | obj (members : List (String × JsonValue)) : JsonValue

namespace JsonValue

/-- Dict insertion with CPython semantics: an existing key keeps its
position and gets the new value, a new key is appended at the end. -/
def objInsert (members : List (String × JsonValue)) (k : String) (v : JsonValue) :
    List (String × JsonValue) :=
  match members with
  | [] => [(k, v)]
  | (k0, v0) :: rest =>
      if k0 = k then (k0, v) :: rest else (k0, v0) :: objInsert rest k v

/-- Dict lookup (`d.get(k)` / `d[k]`). -/
def objLookup (members : List (String × JsonValue)) (k : String) : Option JsonValue :=
  match members with
  | [] => none
  | (k0, v0) :: rest => if k0 = k then some v0 else objLookup rest k

/-- Model of `isinstance(v, dict)`: is the value a JSON object / Python mapping? -/
def isMapping : JsonValue → Bool
  | obj _ => true
  | _ => false

/-- Model of `.get(k)` on a JSON value that is expected to be a mapping. -/
def getKey : JsonValue → String → Option JsonValue
  | obj members, k => objLookup members k
  | _, _ => none

end JsonValue

/-! ### A model of Python's `json.loads` (strict mode) on strings -/

/-- JSON insignificant whitespace, as accepted by Python's decoder. -/
def isJsonWs (c : Char) : Bool :=
  c = ' ' || c = '\t' || c = '\n' || c = '\r'

def skipWs (l : List Char) : List Char := l.dropWhile isJsonWs

def isDigitChar (c : Char) : Bool := 48 ≤ c.toNat && c.toNat ≤ 57

def hexVal (c : Char) : Option Nat :=
  if 48 ≤ c.toNat && c.toNat ≤ 57 then some (c.toNat - 48)
  else if 97 ≤ c.toNat && c.toNat ≤ 102 then some (c.toNat - 87)
  else if 65 ≤ c.toNat && c.toNat ≤ 70 then some (c.toNat - 55)
  else none

def digitsToNat (ds : List Char) : Nat :=
  ds.foldl (fun n c => n * 10 + (c.toNat - 48)) 0

/-- Body of a JSON string literal, entered just after the opening
quote.  Strict mode: raw control characters (codepoint < 32) are a
parse error; the usual backslash escapes and `\uXXXX` are decoded.
(Surrogate-pair recombination is not modelled.) -/
def parseStringBody (acc : List Char) : List Char → Option (String × List Char)
  | [] => none
  | c :: rest =>
    if c = '"' then some (⟨acc.reverse⟩, rest)
    else if c = '\\' then
      match rest with
      | [] => none
      | e :: rest2 =>
        if e = '"' then parseStringBody ('"' :: acc) rest2
        else if e = '\\' then parseStringBody ('\\' :: acc) rest2
        else if e = '/' then parseStringBody ('/' :: acc) rest2
        else if e = 'b' then parseStringBody (Char.ofNat 8 :: acc) rest2
        else if e = 'f' then parseStringBody (Char.ofNat 12 :: acc) rest2
        else if e = 'n' then parseStringBody ('\n' :: acc) rest2
        else if e = 'r' then parseStringBody ('\r' :: acc) rest2
        else if e = 't' then parseStringBody ('\t' :: acc) rest2
        else if e = 'u' then
          match rest2 with
          | h1 :: h2 :: h3 :: h4 :: rest3 =>
            match hexVal h1, hexVal h2, hexVal h3, hexVal h4 with
            | some a, some b, some c2, some d =>
                parseStringBody (Char.ofNat (((a * 16 + b) * 16 + c2) * 16 + d) :: acc) rest3
            | _, _, _, _ => none
          | _ => none
        else none
    else if c.toNat < 32 then none
    else parseStringBody (c :: acc) rest

/-- Fractional part `(\.\d+)?` of the JSON number grammar; does not
consume a `.` unless at least one digit follows it. -/
def parseFrac (l : List Char) : ℚ × List Char :=
  match l with
  | [] => (0, l)
  | c :: rest =>
    if c = '.' then
      let ds := rest.takeWhile isDigitChar
      if ds = [] then (0, l)
      else ((digitsToNat ds : ℚ) / (10 : ℚ) ^ ds.length, rest.dropWhile isDigitChar)
    else (0, l)

/-- Exponent part `([eE][-+]?\d+)?`; does not consume `e`/`E` unless a
well-formed exponent follows. -/
def parseExp (l : List Char) : ℤ × List Char :=
  match l with
  | [] => (0, l)
  | c :: rest =>
    if c = 'e' || c = 'E' then
      let (sign, rest2) : ℤ × List Char :=
        match rest with
        | c2 :: rest' =>
          if c2 = '-' then (-1, rest') else if c2 = '+' then (1, rest') else (1, rest)
        | [] => (1, rest)
      let ds := rest2.takeWhile isDigitChar
      if ds = [] then (0, l)
      else (sign * (digitsToNat ds : ℤ), rest2.dropWhile isDigitChar)
    else (0, l)

/-- JSON number per Python's `NUMBER_RE`:
`(-?(?:0|[1-9]\d*))(\.\d+)?([eE][-+]?\d+)?`.  A leading zero may not
be followed by further integer digits. -/
def parseNumber (l : List Char) : Option (ℚ × List Char) :=
  let (neg, l1) : Bool × List Char :=
    match l with
    | c :: rest => if c = '-' then (true, rest) else (false, l)
    | [] => (false, l)
  match l1 with
  | [] => none
  | c :: rest =>
    if c = '0' then
      let (f, rest3) := parseFrac rest
      let (e, rest4) := parseExp rest3
      some ((if neg then (-1 : ℚ) else 1) * ((0 : ℚ) + f) * (10 : ℚ) ^ e, rest4)
    else if isDigitChar c then
      let ds := rest.takeWhile isDigitChar
      let n := digitsToNat (c :: ds)
      let rest2 := rest.dropWhile isDigitChar
      let (f, rest3) := parseFrac rest2
      let (e, rest4) := parseExp rest3
      some ((if neg then (-1 : ℚ) else 1) * ((n : ℚ) + f) * (10 : ℚ) ^ e, rest4)
    else none

def lbrace : Char := Char.ofNat 123
def rbrace : Char := Char.ofNat 125
def lbrack : Char := '['
def rbrack : Char := ']'

/-- The three decoder positions, merged into one type so the parser
is a single structurally-recursive function on fuel (which lets the
kernel evaluate it during proofs). -/
inductive PMode : Type where
  | val : PMode
  | objBody (acc : List (String × JsonValue)) (allowEmpty : Bool) : PMode
  | arrBody (acc : List JsonValue) (allowEmpty : Bool) : PMode

/-- The JSON decoder.
* mode `val`: one JSON value, positioned at its first character.
* mode `objBody`: members of an object, positioned (whitespace
  already skipped) at either the closing brace — only legal while
  `allowEmpty`, i.e. right after the opening brace — or at the quote
  of the next key.
* mode `arrBody`: elements of an array, analogously.
`fuel` dominates the nesting/member structure; callers supply
`length + 2` which is always sufficient, so running out of fuel
coincides with a parse error on malformed input. -/
def parseCore (fuel : Nat) (mode : PMode) (l : List Char) : Option (JsonValue × List Char) :=
  match fuel with
  | 0 => none
  | fuel' + 1 =>
    match mode with
    | PMode.val =>
      match l with
      | [] => none
      | c :: rest =>
        if c = lbrace then parseCore fuel' (PMode.objBody [] true) (skipWs rest)
        else if c = lbrack then parseCore fuel' (PMode.arrBody [] true) (skipWs rest)
        else if c = '"' then
          match parseStringBody [] rest with
          | some (s, r) => some (JsonValue.str s, r)
          | none => none
        else if c = 't' then
          match rest with
          | 'r' :: 'u' :: 'e' :: r => some (JsonValue.bool true, r)
          | _ => none
        else if c = 'f' then
          match rest with
          | 'a' :: 'l' :: 's' :: 'e' :: r => some (JsonValue.bool false, r)
          | _ => none
        else if c = 'n' then
          match rest with
          | 'u' :: 'l' :: 'l' :: r => some (JsonValue.null, r)
          | _ => none
        else
          match parseNumber l with
          | some (q, r) => some (JsonValue.num q, r)
          | none => none
    | PMode.objBody acc allowEmpty =>
      match l with
      | [] => none
      | c :: rest =>
        if c = rbrace && allowEmpty then some (JsonValue.obj acc, rest)
        else if c = '"' then
          match parseStringBody [] rest with
          | none => none
          | some (k, r1) =>
            match skipWs r1 with
            | ':' :: r2 =>
              match parseCore fuel' PMode.val (skipWs r2) with
              | none => none
              | some (v, r3) =>
                match skipWs r3 with
                | c2 :: r4 =>
                  if c2 = rbrace then some (JsonValue.obj (JsonValue.objInsert acc k v), r4)
                  else if c2 = ',' then
                    parseCore fuel' (PMode.objBody (JsonValue.objInsert acc k v) false) (skipWs r4)
                  else none
                | [] => none
            | _ => none
        else none
    | PMode.arrBody acc allowEmpty =>
      match l with
      | [] => none
      | c :: rest =>
        if c = rbrack && allowEmpty then some (JsonValue.arr acc.reverse, rest)
        else
          match parseCore fuel' PMode.val l with
          | none => none
          | some (v, r1) =>
            match skipWs r1 with
            | c2 :: r2 =>
              if c2 = rbrack then some (JsonValue.arr (v :: acc).reverse, r2)
              else if c2 = ',' then
                parseCore fuel' (PMode.arrBody (v :: acc) false) (skipWs r2)
              else none
            | [] => none

/-- Model of `json.loads` on a string: parse one value surrounded by
optional whitespace; anything else (including trailing data) is a
`JSONDecodeError`, modelled as `none`. -/
def json_loads (s : String) : Option JsonValue :=
  match parseCore (s.data.length + 2) PMode.val (skipWs s.data) with
  | some (v, rest) => if skipWs rest = [] then some v else none
  | none => none

/-! ### `clean_json_string` (src/config.py lines 81-153) -/

/-- Characters replaced by the first repair regex
`re.sub(r'[\x00-\x1f\x7f-\x9f]', ' ', json_str)`. -/
def ctrlToSpace (c : Char) : Char :=
  if c.toNat ≤ 31 || (127 ≤ c.toNat && c.toNat ≤ 159) then ' ' else c

/-- Python's `\s` character class on `str` (also used for `str.strip`):
ASCII whitespace plus the Unicode whitespace code points. -/
def isPySpace (c : Char) : Bool :=
  c = ' ' || c = '\t' || c = '\n' || c = '\r' || c = Char.ofNat 11 || c = Char.ofNat 12 ||
  c = Char.ofNat 28 || c = Char.ofNat 29 || c = Char.ofNat 30 || c = Char.ofNat 31 ||
  c = Char.ofNat 133 || c = Char.ofNat 160 || c = Char.ofNat 5760 ||
  (8192 ≤ c.toNat && c.toNat ≤ 8202) || c = Char.ofNat 8232 || c = Char.ofNat 8233 ||
  c = Char.ofNat 8239 || c = Char.ofNat 8287 || c = Char.ofNat 12288

/-- Model of `re.sub(r'\s+', ' ', ...)`: collapse each maximal whitespace run to
a single space.  `prevWs` records whether the previous character was
part of a run already emitted. -/
def collapseWsAux (prevWs : Bool) : List Char → List Char
  | [] => []
  | c :: rest =>
    if isPySpace c then
      if prevWs then collapseWsAux true rest else ' ' :: collapseWsAux true rest
    else c :: collapseWsAux false rest

/-- Model of `re.sub(r',\s*X', 'X', ...)` for a closing bracket `X`: a comma,
optional whitespace, then `X` is replaced by `X` alone, scanning left
to right over non-overlapping matches.  Fuel (always supplied as
`length + 1`, which is sufficient because every step consumes at least
one input character) keeps the recursion structural. -/
def subCommaCloseAux (close : Char) : Nat → List Char → List Char
  | 0, l => l
  | _, [] => []
  | fuel + 1, c :: rest =>
    if c = ',' then
      match rest.dropWhile isPySpace with
      | c2 :: rest3 =>
        if c2 = close then close :: subCommaCloseAux close fuel rest3
        else c :: subCommaCloseAux close fuel rest
      | [] => c :: subCommaCloseAux close fuel rest
    else c :: subCommaCloseAux close fuel rest

def subCommaClose (close : Char) (l : List Char) : List Char :=
  subCommaCloseAux close (l.length + 1) l

/-- Model of `re.sub(r'}\s*{', '},{', ...)`: insert the missing comma between
two adjacent object literals. -/
def subBraceBraceAux : Nat → List Char → List Char
  | 0, l => l
  | _, [] => []
  | fuel + 1, c :: rest =>
    if c = rbrace then
      match rest.dropWhile isPySpace with
      | c2 :: rest3 =>
        if c2 = lbrace then rbrace :: ',' :: lbrace :: subBraceBraceAux fuel rest3
        else c :: subBraceBraceAux fuel rest
      | [] => c :: subBraceBraceAux fuel rest
    else c :: subBraceBraceAux fuel rest

def subBraceBrace (l : List Char) : List Char :=
  subBraceBraceAux (l.length + 1) l

/-- Model of `re.sub(r'(?<!\\)"([^"]*)"(?=\s*:)', r'"\1"', ...)`: the
replacement text `"\1"` is exactly the matched text, so this
substitution is the identity on every input. -/
def fixKeyQuotes (l : List Char) : List Char := l

/-- Model of `str.strip()`. -/
def stripPy (l : List Char) : List Char :=
  ((l.dropWhile isPySpace).reverse.dropWhile isPySpace).reverse

/-- The bracket-depth scan of `clean_json_string` (src/config.py lines
116-144): starting at the first `{`/`[` (which is the head of `l`),
walk the characters tracking bracket depth, in-string state and a
pending backslash escape; return the index at which the depth returns
to zero.  Only `startChar`/`endChar` affect the depth, exactly as in
the source.  (The source's counter cannot go below zero before the
scan stops, because the first character already raises it to one, so a
`Nat` counter is faithful.) -/
def scanJsonEnd (startChar endChar : Char) : List Char → Nat → Nat → Bool → Bool → Option Nat
  | [], _, _, _, _ => none
  | c :: rest, i, count, quoteOpen, escNext =>
    if escNext then scanJsonEnd startChar endChar rest (i + 1) count quoteOpen false
    else if c = '\\' then scanJsonEnd startChar endChar rest (i + 1) count quoteOpen true
    else if c = '"' then scanJsonEnd startChar endChar rest (i + 1) count (!quoteOpen) escNext
    else if !quoteOpen then
      if c = startChar then scanJsonEnd startChar endChar rest (i + 1) (count + 1) quoteOpen escNext
      else if c = endChar then
        if count = 1 then some i
        else scanJsonEnd startChar endChar rest (i + 1) (count - 1) quoteOpen escNext
      else scanJsonEnd startChar endChar rest (i + 1) count quoteOpen escNext
    else scanJsonEnd startChar endChar rest (i + 1) count quoteOpen escNext

/-- Model of `clean_json_string` (src/config.py lines 81-153): control
characters to spaces, whitespace collapsed, trailing commas removed,
missing commas between objects inserted, then the outermost balanced
JSON object/array sliced out by the bracket-depth scan; `"{}"` when
the input is empty or nothing bracket-like remains. -/
def clean_json_string (json_str : String) : String :=
  if json_str.data = [] then "\x7b\x7d"
  else
    let cleaned1 := json_str.data.map ctrlToSpace
    let cleaned2 := collapseWsAux false cleaned1
    let cleaned3 := subCommaClose rbrace cleaned2
    let cleaned4 := subCommaClose rbrack cleaned3
    let cleaned5 := subBraceBrace cleaned4
    let cleaned6 := fixKeyQuotes cleaned5
    let cleaned7 := stripPy cleaned6
    let cleaned8 :=
      match cleaned7.findIdx? (fun c => c == lbrace || c == lbrack) with
      | none => cleaned7
      | some jsonStart =>
        match cleaned7.drop jsonStart with
        | [] => cleaned7
        | startChar :: _ =>
          let endChar := if startChar = lbrace then rbrace else rbrack
          match scanJsonEnd startChar endChar (cleaned7.drop jsonStart) 0 0 false false with
          | some relEnd =>
            if relEnd > 0 then (cleaned7.drop jsonStart).take (relEnd + 1) else cleaned7
          | none => cleaned7
    if cleaned8 = [] || !(cleaned8.head? = some lbrace || cleaned8.head? = some lbrack : Bool) then
      "\x7b\x7d"
    else String.mk cleaned8

/-! ### `safe_json_parse` (src/config.py lines 155-184) -/

/-- The third parsing attempt of `safe_json_parse` (src/config.py
lines 171-180): find the first `{` and the last `}` in the original
raw string, slice between them inclusive (a Python slice, so an empty
string results when the last `}` precedes the first `{`), repair and
parse.  `none` when either bracket is absent or the parse fails. -/
def thirdAttempt (json_str : String) : Option JsonValue :=
  match json_str.data.findIdx? (fun c => c == lbrace),
        (json_str.data.reverse.findIdx? (fun c => c == rbrace)).map
          (fun i => json_str.data.length - 1 - i) with
  | some startIdx, some endIdx =>
      let extracted := (json_str.data.drop startIdx).take (endIdx + 1 - startIdx)
      json_loads (clean_json_string (String.mk extracted))
  | _, _ => none

/-- Model of `safe_json_parse` (src/config.py lines 155-184): direct
parse, then repair-and-parse, then extract-repair-and-parse, then the
caller-supplied fallback.  (The `fallback_dict=None` default argument
is not modelled; every call site in the repository passes a dict.) -/
def safe_json_parse (json_str : String) (fallback_dict : JsonValue) : JsonValue :=
  match json_loads json_str with
  | some v => v
  | none =>
    match json_loads (clean_json_string json_str) with
    | some v => v
    | none =>
      match thirdAttempt json_str with
      | some v => v
      | none => fallback_dict

/-! ### The recursion-limited behaviour of `json.loads` inside
`safe_json_parse`

CPython's decoder raises `RecursionError` — not `JSONDecodeError` —
when the nesting of the input exceeds the interpreter recursion limit
(`sys.getrecursionlimit()`, 1000 by default).  `safe_json_parse`
catches only `json.JSONDecodeError` around its first two attempts
(src/config.py lines 165 and 170), so a `RecursionError` raised there
escapes to the caller; only the third attempt's bare `except` (line
179) swallows it.  The depth-bounded decoder below makes this error
class observable; apart from the depth bookkeeping it is `parseCore`
verbatim. -/

/-- Result of one depth-bounded decoder step: success, a decode
failure (`json.JSONDecodeError`), or the recursion limit hit
(`RecursionError`), which propagates uncaught through the scan. -/
inductive DParse : Type where
  | ok (v : JsonValue) (rest : List Char) : DParse
  | fail : DParse
  | deep : DParse

/-- Depth-bounded variant of `parseCore`: descending into a container
nested deeper than `limit` yields `deep` (RecursionError).  Fuel is
supplied as `2 * length + 2`, which dominates the decoder's step
count, so fuel exhaustion again coincides with a decode failure on
malformed input. -/
def parseCoreD (limit : Nat) : Nat → Nat → PMode → List Char → DParse
  | 0, _, _, _ => DParse.fail
  | fuel' + 1, depth, PMode.val, l =>
    match l with
    | [] => DParse.fail
    | c :: rest =>
      if c = lbrace then
        if limit < depth + 1 then DParse.deep
        else parseCoreD limit fuel' (depth + 1) (PMode.objBody [] true) (skipWs rest)
      else if c = lbrack then
        if limit < depth + 1 then DParse.deep
        else parseCoreD limit fuel' (depth + 1) (PMode.arrBody [] true) (skipWs rest)
      else if c = '"' then
        match parseStringBody [] rest with
        | some (s, r) => DParse.ok (JsonValue.str s) r
        | none => DParse.fail
      else if c = 't' then
        match rest with
        | 'r' :: 'u' :: 'e' :: r => DParse.ok (JsonValue.bool true) r
        | _ => DParse.fail
      else if c = 'f' then
        match rest with
        | 'a' :: 'l' :: 's' :: 'e' :: r => DParse.ok (JsonValue.bool false) r
        | _ => DParse.fail
      else if c = 'n' then
        match rest with
        | 'u' :: 'l' :: 'l' :: r => DParse.ok JsonValue.null r
        | _ => DParse.fail
      else
        match parseNumber l with
        | some (q, r) => DParse.ok (JsonValue.num q) r
        | none => DParse.fail
  | fuel' + 1, depth, PMode.objBody acc allowEmpty, l =>
    match l with
    | [] => DParse.fail
    | c :: rest =>
      if c = rbrace && allowEmpty then DParse.ok (JsonValue.obj acc) rest
      else if c = '"' then
        match parseStringBody [] rest with
        | none => DParse.fail
        | some (k, r1) =>
          match skipWs r1 with
          | ':' :: r2 =>
            match parseCoreD limit fuel' depth PMode.val (skipWs r2) with
            | DParse.deep => DParse.deep
            | DParse.fail => DParse.fail
            | DParse.ok v r3 =>
              match skipWs r3 with
              | c2 :: r4 =>
                if c2 = rbrace then DParse.ok (JsonValue.obj (JsonValue.objInsert acc k v)) r4
                else if c2 = ',' then
                  parseCoreD limit fuel' depth
                    (PMode.objBody (JsonValue.objInsert acc k v) false) (skipWs r4)
                else DParse.fail
              | [] => DParse.fail
          | _ => DParse.fail
      else DParse.fail
  | fuel' + 1, depth, PMode.arrBody acc allowEmpty, l =>
    match l with
    | [] => DParse.fail
    | c :: rest =>
      if c = rbrack && allowEmpty then DParse.ok (JsonValue.arr acc.reverse) rest
      else
        match parseCoreD limit fuel' depth PMode.val l with
        | DParse.deep => DParse.deep
        | DParse.fail => DParse.fail
        | DParse.ok v r1 =>
          match skipWs r1 with
          | c2 :: r2 =>
            if c2 = rbrack then DParse.ok (JsonValue.arr (v :: acc).reverse) r2
            else if c2 = ',' then
              parseCoreD limit fuel' depth (PMode.arrBody (v :: acc) false) (skipWs r2)
            else DParse.fail
          | [] => DParse.fail

/-- Outcome of one CPython `json.loads` call, distinguishing the two
error classes `safe_json_parse`'s handlers distinguish. -/
inductive PyParse : Type where
  | ok (v : JsonValue) : PyParse
  | decodeError : PyParse
  | recursionError : PyParse

/-- Model of `json.loads` under the recursion limit `limit`. -/
def json_loads_exc (limit : Nat) (s : String) : PyParse :=
  match parseCoreD limit (2 * s.data.length + 2) 0 PMode.val (skipWs s.data) with
  | DParse.ok v rest => if skipWs rest = [] then PyParse.ok v else PyParse.decodeError
  | DParse.fail => PyParse.decodeError
  | DParse.deep => PyParse.recursionError

/-- The third parsing attempt under the recursion limit.  Its bare
`except` (src/config.py line 179) swallows *both* error classes, so
either one leads to the fallback (`none`). -/
def thirdAttemptExc (limit : Nat) (json_str : String) : Option JsonValue :=
  match json_str.data.findIdx? (fun c => c == lbrace),
        (json_str.data.reverse.findIdx? (fun c => c == rbrace)).map
          (fun i => json_str.data.length - 1 - i) with
  | some startIdx, some endIdx =>
      let extracted := (json_str.data.drop startIdx).take (endIdx + 1 - startIdx)
      match json_loads_exc limit (clean_json_string (String.mk extracted)) with
      | PyParse.ok v => some v
      | _ => none
  | _, _ => none

/-- How a `safe_json_parse` call ends: a returned value, or an
uncaught `RecursionError` escaping to the caller. -/
inductive SJPResult : Type where
  | returned (v : JsonValue) : SJPResult
  | raisedRecursion : SJPResult

/-- Model of `safe_json_parse` under the recursion limit `limit`:
the first two attempts catch only `json.JSONDecodeError`, so their
`RecursionError` propagates; the third attempt's bare `except`
swallows everything. -/
def safe_json_parse_exc (limit : Nat) (json_str : String) (fallback_dict : JsonValue) :
    SJPResult :=
  match json_loads_exc limit json_str with
  | PyParse.ok v => SJPResult.returned v
  | PyParse.recursionError => SJPResult.raisedRecursion
  | PyParse.decodeError =>
    match json_loads_exc limit (clean_json_string json_str) with
    | PyParse.ok v => SJPResult.returned v
    | PyParse.recursionError => SJPResult.raisedRecursion
    | PyParse.decodeError =>
      match thirdAttemptExc limit json_str with
      | some v => SJPResult.returned v
      | none => SJPResult.returned fallback_dict

/-- A value counts as "recovered from the text" when one of the three
parsing attempts (under the recursion limit) yields it. -/
def recoveredFromTextExc (limit : Nat) (s : String) (v : JsonValue) : Prop :=
  json_loads_exc limit s = PyParse.ok v ∨
  json_loads_exc limit (clean_json_string s) = PyParse.ok v ∨
  thirdAttemptExc limit s = some v

/-! ### `rate_limited_api_call` (src/config.py lines 21-46) -/

def startsWithList (pat : List Char) (l : List Char) : Bool :=
  match pat, l with
  | [], _ => true
  | _ :: _, [] => false
  | a :: pat', b :: l' => a == b && startsWithList pat' l'

/-- Python's substring test `pat in s`. -/
def containsSub (pat : List Char) : List Char → Bool
  | [] => pat.isEmpty
  | c :: rest => startsWithList pat (c :: rest) || containsSub pat rest

/-- Model of `"ThrottlingException" in str(e) or "TooManyRequestsException" in str(e)`
(src/config.py line 32); the exception is modelled by its `str(e)` text. -/
def isThrottlingError (e : String) : Bool :=
  containsSub "ThrottlingException".data e.data ||
  containsSub "TooManyRequestsException".data e.data

/-- Observable timing events of one `rate_limited_api_call` run, in
order: a remote call (with its 0-based attempt index) or an injected
`asyncio.sleep` (with its duration in seconds). -/
inductive RLEvent : Type where
  | call (attempt : Nat) : RLEvent
  | sleep (seconds : ℚ) : RLEvent
  deriving DecidableEq

/-- How one `rate_limited_api_call` run ends: `return result`,
`raise e`, or the `return None` after the loop (unreachable with the
fuel the wrapper supplies). -/
inductive RLRes (α : Type) : Type where
  | ok (a : α) : RLRes α
  | raised (e : String) : RLRes α
  | fellThrough : RLRes α
  deriving DecidableEq

/-- The `for attempt in range(max_retries + 1)` loop of
`rate_limited_api_call`.  `apiCall` gives each attempt's outcome.  On
success the source sleeps 1.5 s *after* the call and returns; on a
throttling error with attempts remaining it sleeps
`base_delay * 2 ** attempt` and continues; otherwise it re-raises. -/
def rlLoop {α : Type} (apiCall : Nat → Except String α) (maxRetries : Nat) (baseDelay : ℚ) :
    Nat → Nat → List RLEvent × RLRes α
  | 0, _ => ([], RLRes.fellThrough)
  | fuel + 1, attempt =>
    match apiCall attempt with
    | Except.ok result => ([RLEvent.call attempt, RLEvent.sleep (3 / 2)], RLRes.ok result)
    | Except.error e =>
      if isThrottlingError e then
        if attempt < maxRetries then
          let next := rlLoop apiCall maxRetries baseDelay fuel (attempt + 1)
          (RLEvent.call attempt :: RLEvent.sleep (baseDelay * 2 ^ attempt) :: next.1, next.2)
        else ([RLEvent.call attempt], RLRes.raised e)
      else ([RLEvent.call attempt], RLRes.raised e)

/-- Model of `rate_limited_api_call` (src/config.py lines 21-46),
returning the ordered event trace and the final outcome. -/
def rate_limited_api_call {α : Type} (apiCall : Nat → Except String α) (maxRetries : Nat)
    (baseDelay : ℚ) : List RLEvent × RLRes α :=
  rlLoop apiCall maxRetries baseDelay (maxRetries + 1) 0

/-- Number of remote calls in a trace. -/
def callCount : List RLEvent → Nat
  | [] => 0
  | RLEvent.call _ :: rest => callCount rest + 1
  | _ :: rest => callCount rest

/-- Total seconds of injected sleep in a trace. -/
def sleepTotal : List RLEvent → ℚ
  | [] => 0
  | RLEvent.sleep q :: rest => q + sleepTotal rest
  | _ :: rest => sleepTotal rest

/-- The per-attempt trace of a failed-and-retried attempt sequence:
attempts `a, a+1, ..., a+k-1`, each a call followed by its exponential
backoff sleep. -/
def backoffEvents (b : ℚ) : Nat → Nat → List RLEvent
  | _, 0 => []
  | a, k + 1 => RLEvent.call a :: RLEvent.sleep (b * 2 ^ a) :: backoffEvents b (a + 1) k

/-- The trace of the final attempt: on success the fixed 1.5 s pacing
sleep follows the call; on an error (re-raised) there is no sleep. -/
def finalEvents {α : Type} (apiCall : Nat → Except String α) (n : Nat) : List RLEvent :=
  match apiCall n with
  | Except.ok _ => [RLEvent.call n, RLEvent.sleep (3 / 2)]
  | Except.error _ => [RLEvent.call n]

/-! ### `_autonomous_decision_synthesis` (src/agents/orchestrator.py lines 227-322) -/

/-- The fallback dict passed to `safe_json_parse` by
`_autonomous_decision_synthesis` (orchestrator.py lines 302-307). -/
def synthesisParseFallback : JsonValue :=
  JsonValue.obj
    [("final_status", JsonValue.str "manual_review"),
     ("synthesis_reasoning", JsonValue.str "Autonomous synthesis failed, requiring human review"),
     ("synthesis_confidence", JsonValue.num (3 / 10)),
     ("agent_consensus", JsonValue.str "disagreement")]

/-- The dict returned by the `except` branch of
`_autonomous_decision_synthesis` (orchestrator.py lines 311-322). -/
def synthesisExceptFallback : JsonValue :=
  JsonValue.obj
    [("final_status", JsonValue.str "manual_review"),
     ("synthesis_reasoning", JsonValue.str "Autonomous synthesis failed, requiring human review"),
     ("synthesis_confidence", JsonValue.num (3 / 10)),
     ("autonomy_quality", JsonValue.obj
        [("document_agent_autonomy", JsonValue.num (1 / 2)),
         ("risk_agent_autonomy", JsonValue.num (1 / 2)),
         ("coordination_autonomy", JsonValue.num (3 / 10))])]

/-- The decision-making tail of `_autonomous_decision_synthesis`
(orchestrator.py lines 284-322).  The whole `try` block — the Bedrock
invocation, reading/parsing the HTTP body and extracting
`content[0].text` — is abstracted into one `Except String String`:
`ok aiResponse` when it yields the model text, `error` when anything
in the block raises (any error lands in the same `except`).  On
success the text goes through `safe_json_parse` with
`synthesisParseFallback`. -/
def autonomous_decision_synthesis (invocation : Except String String) : JsonValue :=
  match invocation with
  | Except.ok aiResponse => safe_json_parse aiResponse synthesisParseFallback
  | Except.error _ => synthesisExceptFallback

/-! ### Data model (src/models/data_models.py) and `TrueAgent` state
(src/models/base_agent.py) -/

/-- The `AgentMemory` dataclass (data_models.py lines 18-28). -/
structure AgentMemory where
  customer_segment : String
  situation_pattern : String
  action_taken : String
  outcome : String
  success_score : ℚ
  learned_insight : String
  inclusion_impact : String
  timestamp : String
  deriving DecidableEq

/-- The `AgentGoal` dataclass (data_models.py lines 8-16).
`success_criteria` is `Dict[str, Any]` in the source; the only entry
the verified code reads or writes is the numeric `"confidence"` one,
so the criteria are modelled as an association list of numeric
entries. -/
structure AgentGoal where
  goal_type : String
  description : String
  success_criteria : List (String × ℚ)
  priority : ℤ
  social_impact_metric : String
  deadline : Option String
  deriving DecidableEq

/-- The `AgentPlan` dataclass (data_models.py lines 30-40); `steps` and
`contingencies` are lists of JSON-shaped dicts. -/
structure AgentPlan where
  plan_id : String
  goal : String
  customer_segment : String
  steps : List JsonValue
  contingencies : List JsonValue
  expected_outcome : String
  confidence : ℚ
  inclusion_strategy : String

/-- The dict produced by `_execute_step_autonomously` and consumed by
the EXECUTE loop: `{step, success, outcome, learned_info,
next_action_recommendation}`. -/
structure StepResult where
  step : JsonValue
  success : ℚ
  outcome : String
  learned_info : JsonValue
  next_action_recommendation : String

/-- The REFLECT phase's append-and-trim policy (base_agent.py lines
452-457): `memory_bank.append(memory)`, then
`if len(memory_bank) > 20: memory_bank = memory_bank[-15:]`. -/
def append_and_trim (memory_bank : List AgentMemory) (memory : AgentMemory) : List AgentMemory :=
  let mb := memory_bank ++ [memory]
  if mb.length > 20 then mb.drop (mb.length - 15) else mb

/-- Model of `_adapt_plan_autonomously` (base_agent.py lines 375-380): the
source returns `current_plan` itself ("For now, return the current
plan with minor adjustments ... this would create a new plan"). -/
def adapt_plan_autonomously (current_plan : AgentPlan) (_step_result : StepResult) : AgentPlan :=
  current_plan

/-- Mutable state threaded through the EXECUTE loop of
`_execute_plan_autonomously`: the in-flight plan, the actor's
adaptation counter and the accumulated step results. -/
structure ExecState where
  plan : AgentPlan
  adaptation_count : Nat
  results : List StepResult

/-- One iteration of the EXECUTE loop body (base_agent.py lines
272-286): record the step result; when `success < 0.5` and the
(modelled) should-adapt decision is affirmative, replace the plan by
`adapt_plan_autonomously` and increment the adaptation counter. -/
def execute_step_iteration (shouldAdapt : StepResult → Bool) (st : ExecState)
    (step_result : StepResult) : ExecState :=
  let st1 := { st with results := st.results ++ [step_result] }
  if step_result.success < 1 / 2 then
    if shouldAdapt step_result then
      { st1 with
          plan := adapt_plan_autonomously st1.plan step_result,
          adaptation_count := st1.adaptation_count + 1 }
    else st1
  else st1

/-- Model of `str.lower()` (ASCII case folding suffices for the source's
literal needles `'priority'` and `'high'`). -/
def pyLower (s : String) : String := ⟨s.data.map Char.toLower⟩

/-- Lookup in a criteria dict (`goal.success_criteria['confidence']`). -/
def lookupCriterion (sc : List (String × ℚ)) (k : String) : Option ℚ :=
  match sc with
  | [] => none
  | (k0, v) :: rest => if k0 = k then some v else lookupCriterion rest k

/-- Assignment into a criteria dict (existing key keeps its place). -/
def setCriterion (sc : List (String × ℚ)) (k : String) (v : ℚ) : List (String × ℚ) :=
  match sc with
  | [] => [(k, v)]
  | (k0, v0) :: rest =>
      if k0 = k then (k0, v) :: rest else (k0, v0) :: setCriterion rest k v

/-- The first loop of `_adapt_behavior` (base_agent.py lines 469-474),
for one adjustment string: if the lowered adjustment mentions
`'priority'`, every goal with `goal_type == 'primary'` gets
`priority = min(priority + 1, 10)` when the adjustment also mentions
`'high'`. -/
def priorityAdjust (adaptation : String) (goals : List AgentGoal) : List AgentGoal :=
  if containsSub "priority".data (pyLower adaptation).data then
    goals.map (fun goal =>
      if containsSub "high".data (pyLower adaptation).data && goal.goal_type = "primary" then
        { goal with priority := min (goal.priority + 1) 10 }
      else goal)
  else goals

/-- The second loop of `_adapt_behavior` (base_agent.py lines
477-485), for one goal: when the memory bank holds more than 3
records and the mean success score of the last 3 exceeds 0.8, a
numeric `"confidence"` criterion is raised to
`min(confidence + 0.05, 0.95)`. -/
def lastThreeAvg (memory_bank : List AgentMemory) : ℚ :=
  ((memory_bank.drop (memory_bank.length - 3)).map (fun m => m.success_score)).sum / 3

def confidenceAdjust (memory_bank : List AgentMemory) (goal : AgentGoal) : AgentGoal :=
  if memory_bank.length > 3 then
    if lastThreeAvg memory_bank > 4 / 5 then
      match lookupCriterion goal.success_criteria "confidence" with
      | some c =>
          { goal with
              success_criteria :=
                setCriterion goal.success_criteria "confidence" (min (c + 1 / 20) (19 / 20)) }
      | none => goal
    else goal
  else goal

/-- Model of `_adapt_behavior` (base_agent.py lines 465-487).  The
learning insight enters only through its
`future_goal_adjustments` list of strings. -/
def adapt_behavior (goals : List AgentGoal) (memory_bank : List AgentMemory)
    (future_goal_adjustments : List String) : List AgentGoal :=
  let goals1 := future_goal_adjustments.foldl (fun gs adaptation => priorityAdjust adaptation gs) goals
  goals1.map (confidenceAdjust memory_bank)

/-! ### Customer segmentation (src/utils/customer_segmentation.py) -/

/-- The urban pincode prefix list of `_is_definitely_urban_pincode`
(customer_segmentation.py lines 298-312). -/
def urban_patterns : List String :=
  ["122", "121", "201", "110", "400", "560", "600", "500", "411", "700", "380", "302", "226"]

/-- Model of `_is_definitely_urban_pincode` (lines 292-319): false for a falsy
pincode, else true iff the pincode starts with one of the urban
prefixes. -/
def is_definitely_urban_pincode (pincode : String) : Bool :=
  if pincode = "" then false
  else urban_patterns.any (fun p => startsWithList p.data pincode.data)

/-- The result dict of the segmentation paths.  The process-log/UI
bookkeeping entries (`process_log`, `agent_status`) and the
explanatory text fields that only echo input (`geographic_analysis`,
`economic_analysis`, `raw_ai_response`) are not modelled. -/
structure SegResult where
  customer_segment : String
  confidence : ℚ
  pincode : String
  income : ℤ
  reasoning : JsonValue
  banking_recommendations : JsonValue
  classification_method : String
  agent_intelligence : String

/-- Model of `_fallback_with_process` (customer_segmentation.py lines
232-290): pincode override first, else income-based thresholds. -/
def fallback_with_process (pincode : Option String) (income : ℤ) : SegResult :=
  let pinStr := match pincode with | some p => p | none => "None"
  let pinTruthy : Bool := match pincode with | some p => decide (p ≠ "") | none => false
  let (segment, confidence, reason) : String × ℚ × String :=
    if pinTruthy && is_definitely_urban_pincode pinStr then
      ("Urban", 85 / 100,
       "Pincode " ++ pinStr ++ " is in a major urban area (Fallback classification)")
    else if income ≤ 300000 then
      ("Rural", 60 / 100, "Low income suggests rural customer (AI unavailable)")
    else if income ≥ 700000 then
      ("Urban", 60 / 100, "High income suggests urban customer (AI unavailable)")
    else
      ("Semi-Urban", 50 / 100, "Middle income - unclear without AI analysis")
  let basic_recommendations : JsonValue :=
    if segment = "Rural" then
      JsonValue.arr [JsonValue.str "Rural banking services", JsonValue.str "Agricultural loans",
        JsonValue.str "Micro-finance"]
    else if segment = "Urban" then
      JsonValue.arr [JsonValue.str "Premium banking", JsonValue.str "Investment products",
        JsonValue.str "Credit cards"]
    else
      JsonValue.arr [JsonValue.str "Flexible banking options", JsonValue.str "Small business loans"]
  { customer_segment := segment
    confidence := confidence
    pincode := if pinTruthy then pinStr else "Not provided"
    income := income
    reasoning := JsonValue.str reason
    banking_recommendations := basic_recommendations
    classification_method := "fallback_basic_rules"
    agent_intelligence := "fallback_mode" }

/-- Model of `float(x)` on the JSON value found under `'confidence'` (default
0.5 when the key is absent): numbers pass through, booleans become
0/1, numeric strings are parsed, anything else raises (→ `none`).
Non-finite float literals are not modelled. -/
def pyFloatString (s : String) : Option ℚ :=
  let l := stripPy s.data
  let (neg, l1) : Bool × List Char :=
    match l with
    | c :: rest =>
      if c = '-' then (true, rest) else if c = '+' then (false, rest) else (false, l)
    | [] => (false, l)
  let ds1 := l1.takeWhile isDigitChar
  let r1 := l1.dropWhile isDigitChar
  let (ds2, r2) : List Char × List Char :=
    match r1 with
    | c :: rest =>
      if c = '.' then (rest.takeWhile isDigitChar, rest.dropWhile isDigitChar) else ([], r1)
    | [] => ([], r1)
  if ds1 = [] && ds2 = [] then none
  else
    let base := (digitsToNat ds1 : ℚ) + (digitsToNat ds2 : ℚ) / (10 : ℚ) ^ ds2.length
    let (e, r3) := parseExp r2
    if r3 = [] then some ((if neg then (-1 : ℚ) else 1) * base * (10 : ℚ) ^ e) else none

def pyFloatOpt : Option JsonValue → Option ℚ
  | none => some (1 / 2)
  | some (JsonValue.num q) => some q
  | some (JsonValue.bool b) => some (if b then 1 else 0)
  | some (JsonValue.str s) => pyFloatString s
  | some _ => none

/-- Python's `round(x, 2)` (round half to even) on the exact rational
model; binary-float representation effects are not modelled. -/
def pyRound2 (q : ℚ) : ℚ :=
  let x := q * 100
  let f : ℤ := ⌊x⌋
  let r : ℤ :=
    if x - (f : ℚ) < 1 / 2 then f
    else if x - (f : ℚ) > 1 / 2 then f + 1
    else if f % 2 = 0 then f else f + 1
  (r : ℚ) / 100

/-- Model of `_parse_agent_response` (customer_segmentation.py lines
168-230).  Any raised validation error lands in the `except` branch,
which delegates to `_fallback_with_process`. -/
def parse_agent_response (ai_response : String) (pincode : Option String) (income : ℤ) :
    SegResult :=
  let pinStr := match pincode with | some p => p | none => "None"
  let pinTruthy : Bool := match pincode with | some p => decide (p ≠ "") | none => false
  match ai_response.data.findIdx? (fun c => c == lbrace),
        (ai_response.data.reverse.findIdx? (fun c => c == rbrace)).map
          (fun i => ai_response.data.length - 1 - i) with
  | some json_start, some json_endm1 =>
    let json_str := (ai_response.data.drop json_start).take (json_endm1 + 1 - json_start)
    let json_str2 := json_str.filter (fun c => 32 ≤ c.toNat || c == '\n' || c == '\r' || c == '\t')
    match json_loads (String.mk json_str2) with
    | none => fallback_with_process pincode income
    | some agent_decision =>
      match agent_decision.getKey "customer_segment" with
      | some (JsonValue.str seg) =>
        if seg = "Rural" || seg = "Urban" || seg = "Semi-Urban" then
          match pyFloatOpt (agent_decision.getKey "confidence") with
          | none => fallback_with_process pincode income
          | some conf0 =>
            let confidence := if ¬(0 ≤ conf0 ∧ conf0 ≤ 1) then max 0 (min 1 conf0) else conf0
            let overridden := pinTruthy && is_definitely_urban_pincode pinStr && seg ≠ "Urban"
            let finalSegment := if overridden then "Urban" else seg
            let finalConfidence := if overridden then max (85 / 100) confidence else confidence
            let reasoning : JsonValue :=
              if overridden then
                JsonValue.str ("Corrected from " ++ seg ++
                  " to Urban based on pincode knowledge: " ++ pinStr ++ " is in Gurgaon NCR")
              else
                match agent_decision.getKey "reasoning" with
                | some v => v
                | none => JsonValue.str "AI autonomous analysis"
            { customer_segment := finalSegment
              confidence := pyRound2 finalConfidence
              pincode := if pinTruthy then pinStr else "Not provided"
              income := income
              reasoning := reasoning
              banking_recommendations :=
                match agent_decision.getKey "banking_recommendations" with
                | some v => v
                | none => JsonValue.arr []
              classification_method := "autonomous_ai_analysis"
              agent_intelligence := "aws_bedrock_claude" }
        else fallback_with_process pincode income
      | _ => fallback_with_process pincode income
  | _, _ => fallback_with_process pincode income

/-! ### Auxiliary definitions for stating the claims -/

/-- The effect of one `_adapt_behavior` priority-loop iteration on a
single goal (the per-goal view of `priorityAdjust`). -/
def priorityAdjustGoal (adaptation : String) (goal : AgentGoal) : AgentGoal :=
  if containsSub "priority".data (pyLower adaptation).data then
    if containsSub "high".data (pyLower adaptation).data && goal.goal_type = "primary" then
      { goal with priority := min (goal.priority + 1) 10 }
    else goal
  else goal

/-- A concrete `AgentMemory` record used to instantiate general
theorems. -/
def sampleMemory : AgentMemory :=
  { customer_segment := "General", situation_pattern := "p", action_taken := "a",
    outcome := "o", success_score := 1, learned_insight := "i", inclusion_impact := "imp",
    timestamp := "t" }

/-- A concrete `AgentPlan` used to instantiate general theorems. -/
def samplePlan : AgentPlan :=
  { plan_id := "p1", goal := "g", customer_segment := "General", steps := [],
    contingencies := [], expected_outcome := "o", confidence := 1 / 2,
    inclusion_strategy := "s" }

/-- A concrete failing `StepResult` (success 0.4 < 0.5). -/
def sampleStepResult : StepResult :=
  { step := JsonValue.obj [], success := 2 / 5, outcome := "failed",
    learned_info := JsonValue.obj [], next_action_recommendation := "adapt" }

/-- A goal outside the bounds maintained by the shipped goal sets:
priority 11 (> 10) and confidence threshold 0.96 (> 0.95). -/
def cexGoal : AgentGoal :=
  { goal_type := "primary", description := "d",
    success_criteria := [("confidence", 24 / 25)], priority := 11,
    social_impact_metric := "m", deadline := none }

/-- A goal within the bounds maintained by the shipped goal sets. -/
def monoGoal : AgentGoal :=
  { goal_type := "primary", description := "d",
    success_criteria := [("confidence", 9 / 10)], priority := 10,
    social_impact_metric := "m", deadline := none }

/-- The goal `monoGoal` after one ADAPT_BEHAVIOR pass with a priority-high
adjustment and a high-success memory window. -/
def monoGoalAfter : AgentGoal :=
  { goal_type := "primary", description := "d",
    success_criteria := [("confidence", 19 / 20)], priority := 10,
    social_impact_metric := "m", deadline := none }

/-!
## Theorems

Helper lemmas are shared; each claim has exactly one named theorem
(plus, where needed, a witness or counterexample theorem).
-/

/-- C1 (amended): how every `safe_json_parse` call ends, under the
interpreter recursion limit.  It raises (an uncaught
`RecursionError`) exactly when `json.loads` hits the recursion limit
during the first (direct) or second (repaired) attempt — only
`json.JSONDecodeError` is caught there, while the third attempt's
bare `except` swallows everything; on every other input it terminates
without raising and returns either a value recovered from the text by
one of its three parsing attempts (not necessarily a mapping) or the
supplied fallback unchanged. -/
theorem safe_json_parse_raise_characterization (limit : Nat) (s : String) (fb : JsonValue) :
    (safe_json_parse_exc limit s fb = SJPResult.raisedRecursion ∧
      (json_loads_exc limit s = PyParse.recursionError ∨
        (json_loads_exc limit s = PyParse.decodeError ∧
         json_loads_exc limit (clean_json_string s) = PyParse.recursionError))) ∨
    safe_json_parse_exc limit s fb = SJPResult.returned fb ∨
    ∃ v, recoveredFromTextExc limit s v ∧
      safe_json_parse_exc limit s fb = SJPResult.returned v := by
  unfold safe_json_parse_exc
  cases h1 : json_loads_exc limit s with
  | ok v => exact Or.inr (Or.inr ⟨v, Or.inl h1, rfl⟩)
  | recursionError => exact Or.inl ⟨rfl, Or.inl rfl⟩
  | decodeError =>
    cases h2 : json_loads_exc limit (clean_json_string s) with
    | ok v => exact Or.inr (Or.inr ⟨v, Or.inr (Or.inl h2), rfl⟩)
    | recursionError => exact Or.inl ⟨rfl, Or.inr ⟨rfl, rfl⟩⟩
    | decodeError =>
      cases h3 : thirdAttemptExc limit s with
      | some v => exact Or.inr (Or.inr ⟨v, Or.inr (Or.inr h3), rfl⟩)
      | none => exact Or.inr (Or.inl rfl)

/-- A chain of `k + 1` opening brackets starting at nesting depth
`depth`, with `depth + k` already at the limit, drives the
depth-bounded decoder into `deep` (RecursionError): each bracket
descends one level and the last one exceeds the limit, before
anything after the chain is looked at. -/
theorem parseCoreD_bracket_chain (limit : Nat) :
    ∀ (k fuel depth : Nat) (rest : List Char), depth + k = limit → 2 * k + 1 ≤ fuel →
      parseCoreD limit fuel depth PMode.val (List.replicate (k + 1) '[' ++ rest) =
        DParse.deep := by
  have hb1 : ¬ ('[' = lbrace) := by decide
  have hb2 : ('[' = lbrack) := by decide
  intro k
  induction k with
  | zero =>
    intro fuel depth rest hd hf
    obtain ⟨f, rfl⟩ : ∃ f, fuel = f + 1 := ⟨fuel - 1, by omega⟩
    have hdep : limit < depth + 1 := by omega
    rw [show List.replicate (0 + 1) '[' ++ rest = '[' :: rest from by simp]
    simp only [parseCoreD]
    rw [if_neg hb1, if_pos hb2, if_pos hdep]
  | succ k ih =>
    intro fuel depth rest hd hf
    obtain ⟨f, rfl⟩ : ∃ f, fuel = f + 1 := ⟨fuel - 1, by omega⟩
    have hnd : ¬ (limit < depth + 1) := by omega
    rw [show List.replicate (k + 1 + 1) '[' ++ rest =
      '[' :: (List.replicate (k + 1) '[' ++ rest) from by simp [List.replicate_succ]]
    simp only [parseCoreD]
    rw [if_neg hb1, if_pos hb2, if_neg hnd]
    have hskip : skipWs (List.replicate (k + 1) '[' ++ rest) =
        List.replicate (k + 1) '[' ++ rest := by
      rw [show List.replicate (k + 1) '[' ++ rest =
        '[' :: (List.replicate k '[' ++ rest) from by simp [List.replicate_succ]]
      simp [skipWs, List.dropWhile_cons, show isJsonWs '[' = false from by decide]
    rw [hskip]
    obtain ⟨g, rfl⟩ : ∃ g, f = g + 1 := ⟨f - 1, by omega⟩
    simp only [parseCoreD]
    rw [show List.replicate (k + 1) '[' ++ rest =
      '[' :: (List.replicate k '[' ++ rest) from by simp [List.replicate_succ]]
    simp only [show (('[' = rbrack : Bool) && true) = false from by decide, Bool.false_eq_true,
      if_false]
    rw [show '[' :: (List.replicate k '[' ++ rest) =
      List.replicate (k + 1) '[' ++ rest from by simp [List.replicate_succ]]
    rw [ih g (depth + 1) rest (by omega) (by omega)]

/-- On any input that opens more nested containers than the recursion
limit before anything else, `safe_json_parse` does not return: the
`RecursionError` of the first `json.loads` attempt escapes its
`except json.JSONDecodeError` handler. -/
theorem deep_nesting_raises (limit : Nat) (rest : List Char) (fb : JsonValue) :
    safe_json_parse_exc limit (String.mk (List.replicate (limit + 1) '[' ++ rest)) fb =
      SJPResult.raisedRecursion := by
  have hskip : skipWs (List.replicate (limit + 1) '[' ++ rest) =
      List.replicate (limit + 1) '[' ++ rest := by
    rw [show List.replicate (limit + 1) '[' ++ rest =
      '[' :: (List.replicate limit '[' ++ rest) from by simp [List.replicate_succ]]
    simp [skipWs, List.dropWhile_cons, show isJsonWs '[' = false from by decide]
  have hparse : json_loads_exc limit (String.mk (List.replicate (limit + 1) '[' ++ rest)) =
      PyParse.recursionError := by
    unfold json_loads_exc
    rw [show (String.mk (List.replicate (limit + 1) '[' ++ rest)).data =
      List.replicate (limit + 1) '[' ++ rest from rfl]
    rw [hskip, parseCoreD_bracket_chain limit limit _ 0 rest (by omega) (by simp; omega)]
  unfold safe_json_parse_exc
  rw [hparse]

/-- C1 counterexample, refuting the claim as stated on both counts:
at the CPython default recursion limit 1000, the deeply nested input
of 2000 opening brackets makes `safe_json_parse` *raise* a
`RecursionError` (for every fallback — nothing is returned at all);
and on the valid JSON input `"null"` it returns `None`, which is
neither a mapping recovered from the text nor the supplied fallback
mapping. -/
theorem safe_json_parse_raises_cex :
    safe_json_parse_exc 1000 (String.mk (List.replicate 2000 '[')) (JsonValue.obj []) =
      SJPResult.raisedRecursion ∧
    safe_json_parse "null" (JsonValue.obj [("x", JsonValue.num 1)]) = JsonValue.null ∧
    JsonValue.isMapping JsonValue.null = false ∧
    JsonValue.null ≠ JsonValue.obj [("x", JsonValue.num 1)] := by
  refine ⟨?_, by rfl, rfl, fun h => JsonValue.noConfusion h⟩
  have hsplit : List.replicate 2000 '[' =
      List.replicate (1000 + 1) '[' ++ List.replicate 999 '[' := by
    rw [← List.replicate_add]
  rw [hsplit]
  exact deep_nesting_raises 1000 (List.replicate 999 '[') (JsonValue.obj [])

/-- C10: whenever the direct parse succeeds, `safe_json_parse` returns
the parsed value verbatim, so a non-object JSON text hands the caller
a non-mapping despite the declared `-> dict` contract. -/
theorem safe_json_parse_direct_verbatim (s : String) (fb v : JsonValue)
    (h : json_loads s = some v) (hv : JsonValue.isMapping v = false) :
    safe_json_parse s fb = v ∧ JsonValue.isMapping (safe_json_parse s fb) = false := by
  have he : safe_json_parse s fb = v := by
    unfold safe_json_parse
    rw [h]
  exact ⟨he, he ▸ hv⟩

/-- C10 witness: `safe_json_parse("[1, 2]", fb) = [1, 2]`. -/
theorem safe_json_parse_direct_verbatim_witness :
    safe_json_parse "[1, 2]" (JsonValue.obj []) =
      JsonValue.arr [JsonValue.num 1, JsonValue.num 2] ∧
    JsonValue.isMapping (safe_json_parse "[1, 2]" (JsonValue.obj [])) = false :=
  safe_json_parse_direct_verbatim "[1, 2]" (JsonValue.obj [])
    (JsonValue.arr [JsonValue.num 1, JsonValue.num 2]) (by with_unfolding_all rfl) rfl

/-- C4: on the prose-wrapped input the repair pass slices exactly the
outermost balanced object — the `}` inside the quoted string value
does not close the object — and `safe_json_parse` returns the mapping
`{"a": 1, "b": "x}y"}` for every fallback. -/
theorem bracket_depth_extraction (fb : JsonValue) :
    safe_json_parse "Here is the result: \x7b\"a\": 1, \"b\": \"x\x7dy\"\x7d Thanks!" fb =
      JsonValue.obj [("a", JsonValue.num 1), ("b", JsonValue.str "x\x7dy")] ∧
    clean_json_string "Here is the result: \x7b\"a\": 1, \"b\": \"x\x7dy\"\x7d Thanks!" =
      "\x7b\"a\": 1, \"b\": \"x\x7dy\"\x7d" := by
  constructor
  · with_unfolding_all rfl
  · with_unfolding_all rfl

/-- C2 counterexample: a plain-prose model response ("I cannot
comply") cannot be parsed as a verdict, yet the synthesis step does
not degrade to `manual_review`: the repair pass turns the prose into
`{}` and the step returns an empty verdict with no `final_status` at
all. -/
theorem synthesis_prose_cex :
    autonomous_decision_synthesis (Except.ok "I cannot comply") = JsonValue.obj [] ∧
    (autonomous_decision_synthesis (Except.ok "I cannot comply")).getKey "final_status" =
      none := by
  constructor
  · with_unfolding_all rfl
  · with_unfolding_all rfl

/-- C2 (amended): if the synthesis invocation raises, or the response
is one on which the recovery pipeline falls through to its fallback,
the synthesis step returns `final_status = "manual_review"` with
`synthesis_confidence ≤ 0.3`. -/
theorem synthesis_conservative_fallback (e s : String)
    (h : safe_json_parse s synthesisParseFallback = synthesisParseFallback) :
    (autonomous_decision_synthesis (Except.error e)).getKey "final_status" =
      some (JsonValue.str "manual_review") ∧
    (∃ q, (autonomous_decision_synthesis (Except.error e)).getKey "synthesis_confidence" =
        some (JsonValue.num q) ∧ q ≤ 3 / 10) ∧
    (autonomous_decision_synthesis (Except.ok s)).getKey "final_status" =
      some (JsonValue.str "manual_review") ∧
    (∃ q, (autonomous_decision_synthesis (Except.ok s)).getKey "synthesis_confidence" =
        some (JsonValue.num q) ∧ q ≤ 3 / 10) := by
  have hok : autonomous_decision_synthesis (Except.ok s) = synthesisParseFallback := h
  refine ⟨rfl, ⟨3 / 10, rfl, le_refl _⟩, ?_, ?_⟩
  · rw [hok]
    rfl
  · exact ⟨3 / 10, by rw [hok]; rfl, le_refl _⟩

/-- C2 witness: a fatal invocation error and a truncated-array
response both produce the conservative verdict. -/
theorem synthesis_conservative_fallback_witness :
    (autonomous_decision_synthesis (Except.error "boom")).getKey "final_status" =
      some (JsonValue.str "manual_review") ∧
    (∃ q, (autonomous_decision_synthesis (Except.error "boom")).getKey "synthesis_confidence" =
        some (JsonValue.num q) ∧ q ≤ 3 / 10) ∧
    (autonomous_decision_synthesis (Except.ok "[trunc")).getKey "final_status" =
      some (JsonValue.str "manual_review") ∧
    (∃ q, (autonomous_decision_synthesis (Except.ok "[trunc")).getKey "synthesis_confidence" =
        some (JsonValue.num q) ∧ q ≤ 3 / 10) :=
  synthesis_conservative_fallback "boom" "[trunc" (by with_unfolding_all rfl)

/-- Run of the retry loop when every attempt up to `maxRetries`
raises a throttling error: each failed attempt contributes its call
and its exponential backoff sleep, and the final attempt's error is
re-raised. -/
theorem rlLoop_allThrottle {α : Type} (f : Nat → Except String α) (r : Nat) (b : ℚ)
    (es : Nat → String)
    (hf : ∀ i, i ≤ r → f i = Except.error (es i))
    (ht : ∀ i, i ≤ r → isThrottlingError (es i) = true) :
    ∀ k a, a + k = r →
      rlLoop f r b (k + 1) a = (backoffEvents b a k ++ [RLEvent.call r], RLRes.raised (es r)) := by
  intro k
  induction k with
  | zero =>
    intro a ha
    have haa : a = r := by omega
    subst haa
    rw [rlLoop, hf a le_rfl]
    simp [ht a le_rfl, backoffEvents, lt_self_iff_false]
  | succ k ih =>
    intro a ha
    have h1 : a ≤ r := by omega
    have h2 : a < r := by omega
    have hrec := ih (a + 1) (by omega)
    rw [rlLoop, hf a h1]
    simp [ht a h1, h2, hrec, backoffEvents]

theorem callCount_append : ∀ xs ys : List RLEvent,
    callCount (xs ++ ys) = callCount xs + callCount ys := by
  intro xs ys
  induction xs with
  | nil => simp [callCount]
  | cons x xs ih => cases x <;> simp [callCount, ih] <;> omega

theorem callCount_backoff (b : ℚ) : ∀ (k a : Nat), callCount (backoffEvents b a k) = k := by
  intro k
  induction k with
  | zero => intro a; simp [backoffEvents, callCount]
  | succ k ih =>
    intro a
    have := ih (a + 1)
    simp [backoffEvents, callCount, this]

theorem sleepTotal_append : ∀ xs ys : List RLEvent,
    sleepTotal (xs ++ ys) = sleepTotal xs + sleepTotal ys := by
  intro xs ys
  induction xs with
  | nil => simp [sleepTotal]
  | cons x xs ih => cases x <;> simp [sleepTotal, ih] <;> ring

theorem sleepTotal_backoff (b : ℚ) :
    ∀ (k a : Nat), sleepTotal (backoffEvents b a k) = ∑ i ∈ Finset.range k, b * 2 ^ (a + i) := by
  intro k
  induction k with
  | zero => intro a; simp [backoffEvents, sleepTotal]
  | succ k ih =>
    intro a
    have hstep : sleepTotal (backoffEvents b a (k + 1)) =
        b * 2 ^ a + sleepTotal (backoffEvents b (a + 1) k) := by
      rw [backoffEvents]
      rfl
    rw [hstep, ih, Finset.sum_range_succ']
    have hsum : (∑ i ∈ Finset.range k, b * 2 ^ (a + (i + 1))) =
        ∑ i ∈ Finset.range k, b * 2 ^ ((a + 1) + i) := by
      refine Finset.sum_congr rfl ?_
      intro i _
      have hai : a + (i + 1) = (a + 1) + i := by omega
      rw [hai]
    rw [hsum, Nat.add_zero]
    exact add_comm _ _

theorem callCount_single_call (n : Nat) : callCount [RLEvent.call n] = 1 := rfl

theorem sleepTotal_single_call (n : Nat) : sleepTotal [RLEvent.call n] = 0 := rfl

/-- C3: with throttling on every attempt, `rate_limited_api_call`
makes exactly `maxRetries + 1` calls, sleeps exactly
`Σ_{i<maxRetries} baseDelay·2^i` in backoff, and re-raises the final
attempt's error; a non-throttling error on the first attempt yields
exactly one call, no sleep, and an immediate re-raise. -/
theorem rate_limited_retry_budget {α : Type} (f g : Nat → Except String α) (r : Nat) (b : ℚ)
    (es : Nat → String) (e : String)
    (hb : 0 < b)
    (hf : ∀ i, i ≤ r → f i = Except.error (es i))
    (ht : ∀ i, i ≤ r → isThrottlingError (es i) = true)
    (hg : g 0 = Except.error e)
    (hne : isThrottlingError e = false) :
    callCount (rate_limited_api_call f r b).1 = r + 1 ∧
    sleepTotal (rate_limited_api_call f r b).1 = ∑ i ∈ Finset.range r, b * 2 ^ i ∧
    (rate_limited_api_call f r b).2 = RLRes.raised (es r) ∧
    callCount (rate_limited_api_call g r b).1 = 1 ∧
    sleepTotal (rate_limited_api_call g r b).1 = 0 ∧
    (rate_limited_api_call g r b).2 = RLRes.raised e := by
  have hrun : rate_limited_api_call f r b =
      (backoffEvents b 0 r ++ [RLEvent.call r], RLRes.raised (es r)) :=
    rlLoop_allThrottle f r b es hf ht r 0 (by omega)
  have hgrun : rate_limited_api_call g r b = ([RLEvent.call 0], RLRes.raised e) := by
    unfold rate_limited_api_call
    rw [rlLoop, hg]
    simp [hne]
  refine ⟨?_, ?_, ?_, ?_, ?_, ?_⟩
  · rw [hrun]
    simp [callCount_append, callCount_backoff, callCount]
  · rw [hrun]
    rw [sleepTotal_append, sleepTotal_backoff]
    simp [sleepTotal_single_call]
  · rw [hrun]
  · rw [hgrun]
    rfl
  · rw [hgrun]
    exact sleepTotal_single_call 0
  · rw [hgrun]

/-- C3 witness: `maxRetries = 2`, `baseDelay = 2`, throttling on every
attempt for `f`, an access-denied error on the first attempt for
`g`. -/
theorem rate_limited_retry_budget_witness :
    callCount (rate_limited_api_call
      (fun _ => (Except.error "ThrottlingException" : Except String Nat)) 2 2).1 = 2 + 1 ∧
    sleepTotal (rate_limited_api_call
      (fun _ => (Except.error "ThrottlingException" : Except String Nat)) 2 2).1 =
      ∑ i ∈ Finset.range 2, (2 : ℚ) * 2 ^ i ∧
    (rate_limited_api_call
      (fun _ => (Except.error "ThrottlingException" : Except String Nat)) 2 2).2 =
      RLRes.raised "ThrottlingException" ∧
    callCount (rate_limited_api_call
      (fun _ => (Except.error "AccessDenied" : Except String Nat)) 2 2).1 = 1 ∧
    sleepTotal (rate_limited_api_call
      (fun _ => (Except.error "AccessDenied" : Except String Nat)) 2 2).1 = 0 ∧
    (rate_limited_api_call
      (fun _ => (Except.error "AccessDenied" : Except String Nat)) 2 2).2 =
      RLRes.raised "AccessDenied" :=
  rate_limited_retry_budget
    (fun _ => (Except.error "ThrottlingException" : Except String Nat))
    (fun _ => (Except.error "AccessDenied" : Except String Nat)) 2 2
    (fun _ => "ThrottlingException") "AccessDenied" (by norm_num)
    (fun _ _ => rfl) (fun _ _ => rfl) rfl rfl

/-- Shape of every `rate_limited_api_call` trace: some prefix of
call-then-backoff-sleep pairs, then the final attempt, which is
either a call followed by the fixed 1.5 s pacing sleep (success) or a
bare call (error re-raised). -/
theorem rlLoop_events_shape {α : Type} (f : Nat → Except String α) (r : Nat) (b : ℚ) :
    ∀ k a, a + k = r → ∃ n, a ≤ n ∧ n ≤ r ∧
      (rlLoop f r b (k + 1) a).1 = backoffEvents b a (n - a) ++ finalEvents f n := by
  intro k
  induction k with
  | zero =>
    intro a ha
    have haa : a = r := by omega
    subst haa
    refine ⟨a, le_rfl, le_rfl, ?_⟩
    cases hfa : f a with
    | ok v =>
      rw [rlLoop, hfa]
      simp [finalEvents, hfa, backoffEvents]
    | error e =>
      rw [rlLoop, hfa]
      simp [finalEvents, hfa, backoffEvents, lt_self_iff_false]
  | succ k ih =>
    intro a ha
    cases hfa : f a with
    | ok v =>
      refine ⟨a, le_rfl, by omega, ?_⟩
      rw [rlLoop, hfa]
      simp [finalEvents, hfa, backoffEvents]
    | error e =>
      by_cases hth : isThrottlingError e = true
      · have h2 : a < r := by omega
        obtain ⟨n, hn1, hn2, hn3⟩ := ih (a + 1) (by omega)
        refine ⟨n, by omega, hn2, ?_⟩
        have hna : n - a = (n - (a + 1)) + 1 := by omega
        rw [rlLoop, hfa, hna]
        simp [hth, h2, hn3, backoffEvents]
      · refine ⟨a, le_rfl, by omega, ?_⟩
        rw [rlLoop, hfa]
        simp [hth, finalEvents, hfa, backoffEvents]

/-- C8 (amended): in every `rate_limited_api_call` trace the fixed
1.5 s pacing sleep comes *after* a successful call (the tail of
`finalEvents` in the success case), erroring attempts inject no fixed
delay, and no delay of any kind precedes the first call. -/
theorem fixed_delay_follows_success {α : Type} (f : Nat → Except String α) (r : Nat) (b : ℚ) :
    ∃ n, n ≤ r ∧
      (rate_limited_api_call f r b).1 = backoffEvents b 0 n ++ finalEvents f n ∧
      ((rate_limited_api_call f r b).1).head? = some (RLEvent.call 0) := by
  obtain ⟨n, _, hn2, hn3⟩ := rlLoop_events_shape f r b r 0 (by omega)
  have h0 : (rate_limited_api_call f r b).1 = backoffEvents b 0 n ++ finalEvents f n := by
    simpa [rate_limited_api_call] using hn3
  refine ⟨n, hn2, h0, ?_⟩
  rw [h0]
  cases n with
  | zero =>
    cases hf0 : f 0 with
    | ok v => simp [backoffEvents, finalEvents, hf0]
    | error e => simp [backoffEvents, finalEvents, hf0]
  | succ m => simp [backoffEvents]

/-- C8 counterexample: with a first-attempt success the trace is
`[call 0, sleep 1.5]` — the fixed delay follows the call, nothing
precedes it — and with a first-attempt fatal error the trace is
`[call 0]` with no fixed delay at all, refuting "a fixed delay is
injected before the wrapped call on every attempt". -/
theorem no_pre_call_delay_cex :
    (rate_limited_api_call (fun _ => (Except.ok 0 : Except String Nat)) 3 2).1 =
      [RLEvent.call 0, RLEvent.sleep (3 / 2)] ∧
    (rate_limited_api_call (fun _ => (Except.error "AccessDenied" : Except String Nat)) 3 2).1 =
      [RLEvent.call 0] := by
  constructor
  · with_unfolding_all rfl
  · with_unfolding_all rfl

/-- As long as the memory stays within the cap, the REFLECT
append-and-trim policy is plain appending. -/
theorem foldl_append_no_trim : ∀ (rs acc : List AgentMemory), (acc ++ rs).length ≤ 20 →
    List.foldl append_and_trim acc rs = acc ++ rs := by
  intro rs
  induction rs with
  | nil => intro acc _; simp
  | cons r rs ih =>
    intro acc h
    have hstep : append_and_trim acc r = acc ++ [r] := by
      have hnot : ¬ ((acc ++ [r]).length > 20) := by
        simp only [List.length_append, List.length_cons, List.length_nil] at h ⊢
        omega
      simp only [append_and_trim, if_neg hnot]
    rw [List.foldl_cons, hstep, ih (acc ++ [r]) (by simp at h ⊢; omega)]
    simp

/-- C5: appending 21 records through the REFLECT policy leaves
exactly the 15 most recent records, in order (`drop 6` of the 21);
and one application of the policy never leaves more than 20 records,
so the memory length stays within the cap after any phase. -/
theorem memory_cap_trim (rs mb : List AgentMemory) (m : AgentMemory)
    (h21 : rs.length = 21) (hmb : mb.length ≤ 20) :
    List.foldl append_and_trim [] rs = rs.drop 6 ∧
    (List.foldl append_and_trim [] rs).length = 15 ∧
    (append_and_trim mb m).length ≤ 20 := by
  have hne : rs ≠ [] := by
    intro h
    rw [h] at h21
    simp at h21
  have hsplit : rs.dropLast ++ [rs.getLast hne] = rs := List.dropLast_append_getLast hne
  have hylen : rs.dropLast.length = 20 := by
    rw [List.length_dropLast, h21]
  have hfold : List.foldl append_and_trim [] rs =
      append_and_trim rs.dropLast (rs.getLast hne) := by
    conv_lhs => rw [← hsplit]
    rw [List.foldl_append, foldl_append_no_trim rs.dropLast [] (by simp [hylen])]
    simp
  have htrim : append_and_trim rs.dropLast (rs.getLast hne) = rs.drop 6 := by
    simp only [append_and_trim, hsplit, h21]
    norm_num
  have hmain : List.foldl append_and_trim [] rs = rs.drop 6 := hfold.trans htrim
  refine ⟨hmain, ?_, ?_⟩
  · rw [hmain, List.length_drop, h21]
  · by_cases hc : (mb ++ [m]).length > 20
    · simp only [append_and_trim, if_pos hc, List.length_drop]
      omega
    · simp only [append_and_trim, if_neg hc]
      simp only [List.length_append, List.length_cons, List.length_nil] at hc ⊢
      omega

/-- C5 witness: 21 concrete records, and a cap-full memory of 20. -/
theorem memory_cap_trim_witness :
    List.foldl append_and_trim [] (List.replicate 21 sampleMemory) =
      (List.replicate 21 sampleMemory).drop 6 ∧
    (List.foldl append_and_trim [] (List.replicate 21 sampleMemory)).length = 15 ∧
    (append_and_trim (List.replicate 20 sampleMemory) sampleMemory).length ≤ 20 :=
  memory_cap_trim (List.replicate 21 sampleMemory) (List.replicate 20 sampleMemory)
    sampleMemory (by simp) (by simp)

/-- C6: for pincode "122018" (urban prefix "122") and income 500000,
the prose-wrapped model response classifying "Semi-Urban" at 0.4 is
recovered, overridden to "Urban", and the confidence is raised to
0.85. -/
theorem segmentation_override_e2e :
    is_definitely_urban_pincode "122018" = true ∧
    (parse_agent_response "Sure! \x7b\"customer_segment\":\"Semi-Urban\",\"confidence\":0.4\x7d"
      (some "122018") 500000).customer_segment = "Urban" ∧
    (85 / 100 : ℚ) ≤
      (parse_agent_response "Sure! \x7b\"customer_segment\":\"Semi-Urban\",\"confidence\":0.4\x7d"
        (some "122018") 500000).confidence := by
  refine ⟨rfl, by with_unfolding_all rfl, ?_⟩
  have h : (parse_agent_response
      "Sure! \x7b\"customer_segment\":\"Semi-Urban\",\"confidence\":0.4\x7d"
      (some "122018") 500000).confidence = 85 / 100 := by
    with_unfolding_all rfl
  rw [h]

/-- C7: the adaptation routine is a stub — it returns the current
plan itself, so the "adapted" plan has the *same* id as the old plan,
while the adaptation counter is still incremented; evaluated at a
failing step (success 0.4 < 0.5) with an affirmative should-adapt
decision. -/
theorem adapt_plan_stub_same_id :
    (∀ (plan : AgentPlan) (sr : StepResult), adapt_plan_autonomously plan sr = plan) ∧
    (execute_step_iteration (fun _ => true)
      { plan := samplePlan, adaptation_count := 0, results := [] }
      sampleStepResult).plan.plan_id = samplePlan.plan_id ∧
    (execute_step_iteration (fun _ => true)
      { plan := samplePlan, adaptation_count := 0, results := [] }
      sampleStepResult).adaptation_count = 1 := by
  refine ⟨fun plan sr => rfl, ?_, ?_⟩
  · with_unfolding_all rfl
  · with_unfolding_all rfl

theorem priorityAdjust_eq_map (adaptation : String) (gs : List AgentGoal) :
    priorityAdjust adaptation gs = gs.map (priorityAdjustGoal adaptation) := by
  by_cases h : containsSub "priority".data (pyLower adaptation).data = true
  · simp [priorityAdjust, priorityAdjustGoal, h]
  · have hfun : priorityAdjustGoal adaptation = id :=
      funext fun g => by simp [priorityAdjustGoal, h]
    simp [priorityAdjust, h, hfun]

theorem foldl_priorityAdjust (adjs : List String) : ∀ gs : List AgentGoal,
    adjs.foldl (fun x adaptation => priorityAdjust adaptation x) gs =
      gs.map (fun g => adjs.foldl (fun x adaptation => priorityAdjustGoal adaptation x) g) := by
  induction adjs with
  | nil => intro gs; simp
  | cons adj adjs ih =>
    intro gs
    rw [List.foldl_cons, priorityAdjust_eq_map, ih, List.map_map]
    rfl

/-- The phase `_adapt_behavior` acts on each goal independently. -/
theorem adapt_behavior_map (goals : List AgentGoal) (mem : List AgentMemory)
    (adjs : List String) :
    adapt_behavior goals mem adjs =
      goals.map (fun g => confidenceAdjust mem
        (adjs.foldl (fun x adaptation => priorityAdjustGoal adaptation x) g)) := by
  unfold adapt_behavior
  rw [foldl_priorityAdjust, List.map_map]
  rfl

theorem priorityAdjustGoal_mono (adaptation : String) (g : AgentGoal) (hp : g.priority ≤ 10) :
    g.priority ≤ (priorityAdjustGoal adaptation g).priority ∧
    (priorityAdjustGoal adaptation g).priority ≤ 10 ∧
    (priorityAdjustGoal adaptation g).success_criteria = g.success_criteria := by
  unfold priorityAdjustGoal
  split
  · split
    · refine ⟨le_min (by omega) hp, min_le_right _ _, rfl⟩
    · exact ⟨le_rfl, hp, rfl⟩
  · exact ⟨le_rfl, hp, rfl⟩

theorem foldl_priorityAdjustGoal_mono (adjs : List String) :
    ∀ g : AgentGoal, g.priority ≤ 10 →
      g.priority ≤ (adjs.foldl (fun x adaptation => priorityAdjustGoal adaptation x) g).priority ∧
      (adjs.foldl (fun x adaptation => priorityAdjustGoal adaptation x) g).priority ≤ 10 ∧
      (adjs.foldl (fun x adaptation => priorityAdjustGoal adaptation x) g).success_criteria =
        g.success_criteria := by
  induction adjs with
  | nil => intro g hp; exact ⟨le_rfl, hp, rfl⟩
  | cons adj adjs ih =>
    intro g hp
    obtain ⟨h1, h2, h3⟩ := priorityAdjustGoal_mono adj g hp
    obtain ⟨h4, h5, h6⟩ := ih (priorityAdjustGoal adj g) h2
    exact ⟨le_trans h1 h4, h5, h6.trans h3⟩

theorem confidenceAdjust_priority (mem : List AgentMemory) (g : AgentGoal) :
    (confidenceAdjust mem g).priority = g.priority := by
  unfold confidenceAdjust
  repeat' split
  all_goals rfl

theorem lookup_setCriterion (k : String) (v : ℚ) : ∀ sc : List (String × ℚ),
    lookupCriterion (setCriterion sc k v) k = some v := by
  intro sc
  induction sc with
  | nil => simp [setCriterion, lookupCriterion]
  | cons kv rest ih =>
    obtain ⟨k0, v0⟩ := kv
    by_cases h : k0 = k
    · simp [setCriterion, lookupCriterion, h]
    · simp [setCriterion, lookupCriterion, h, ih]

theorem confidenceAdjust_conf (mem : List AgentMemory) (g : AgentGoal) (c : ℚ)
    (hc : lookupCriterion g.success_criteria "confidence" = some c) (hb : c ≤ 19 / 20) :
    ∃ c', lookupCriterion (confidenceAdjust mem g).success_criteria "confidence" = some c' ∧
      c ≤ c' ∧ c' ≤ 19 / 20 := by
  unfold confidenceAdjust
  split
  · split
    · rw [hc]
      refine ⟨min (c + 1 / 20) (19 / 20), ?_, ?_, min_le_right _ _⟩
      · exact lookup_setCriterion _ _ _
      · exact le_min (by linarith) hb
    · exact ⟨c, hc, le_rfl, hb⟩
  · exact ⟨c, hc, le_rfl, hb⟩

/-- C9 (amended): for every goal whose priority is at most 10 and
whose numeric confidence criterion is at most 0.95 — bounds satisfied
by every goal set the repository constructs, and re-established by
the phase itself, so they are invariants across any sequence of
cycles — ADAPT_BEHAVIOR never decreases the goal's priority or its
confidence criterion, and keeps both within the same bounds. -/
theorem adapt_behavior_monotone (goals : List AgentGoal) (mem : List AgentMemory)
    (adjs : List String) (i : Nat) (g g' : AgentGoal)
    (hg : goals[i]? = some g)
    (hg' : (adapt_behavior goals mem adjs)[i]? = some g')
    (hp : g.priority ≤ 10)
    (hc : ∀ c, lookupCriterion g.success_criteria "confidence" = some c → c ≤ 19 / 20) :
    g.priority ≤ g'.priority ∧ g'.priority ≤ 10 ∧
    ∀ c, lookupCriterion g.success_criteria "confidence" = some c →
      ∃ c', lookupCriterion g'.success_criteria "confidence" = some c' ∧
        c ≤ c' ∧ c' ≤ 19 / 20 := by
  rw [adapt_behavior_map, List.getElem?_map, hg, Option.map_some'] at hg'
  obtain ⟨h1, h2, h3⟩ := foldl_priorityAdjustGoal_mono adjs g hp
  have hg'' := Option.some.inj hg'
  subst hg''
  refine ⟨?_, ?_, ?_⟩
  · rw [confidenceAdjust_priority]
    exact h1
  · rw [confidenceAdjust_priority]
    exact h2
  · intro c hcc
    exact confidenceAdjust_conf mem _ c (by rw [h3]; exact hcc) (hc c hcc)

/-- C9 witness: a primary goal at priority 10 with confidence
threshold 0.9, four high-success memories and a priority-high
adjustment: priority stays 10, confidence rises to 0.95. -/
theorem adapt_behavior_monotone_witness :
    monoGoal.priority ≤ monoGoalAfter.priority ∧ monoGoalAfter.priority ≤ 10 ∧
    ∀ c, lookupCriterion monoGoal.success_criteria "confidence" = some c →
      ∃ c', lookupCriterion monoGoalAfter.success_criteria "confidence" = some c' ∧
        c ≤ c' ∧ c' ≤ 19 / 20 :=
  adapt_behavior_monotone [monoGoal] (List.replicate 4 sampleMemory) ["priority high"] 0
    monoGoal monoGoalAfter rfl (by with_unfolding_all rfl) (by decide)
    (fun c h => by
      rw [show lookupCriterion monoGoal.success_criteria "confidence" = some (9 / 10) from rfl]
        at h
      cases h
      with_unfolding_all decide)

/-- C9 counterexample: on a goal with priority 11 and confidence
threshold 0.96 — states the dataclasses admit, though no shipped goal
set reaches them — ADAPT_BEHAVIOR *lowers* both: priority drops to
10 and the confidence entry drops to 0.95. -/
theorem adapt_behavior_decreases_cex :
    adapt_behavior [cexGoal] (List.replicate 4 sampleMemory) ["priority high"] =
      [{ cexGoal with priority := 10, success_criteria := [("confidence", 19 / 20)] }] ∧
    (10 : ℤ) < cexGoal.priority ∧
    (19 / 20 : ℚ) < 24 / 25 ∧
    lookupCriterion cexGoal.success_criteria "confidence" = some (24 / 25) := by
  refine ⟨?_, ?_, ?_, ?_⟩
  · with_unfolding_all rfl
  · decide
  · with_unfolding_all decide
  · rfl
